import Mathlib

/-!
Verification development for the `absen` classroom attendance system.

The face-matching pipeline (`src/face_detector.py`, class `FaceDetector`)
is embedded shallowly: the external `face_recognition` library's numeric
outputs (face locations, distance vectors, wall-clock times) are inputs to
the embedded logic, and the repository's own control flow is translated
faithfully.  The storage layer (`src/database_handler.py`, class
`DatabaseHandler`) is embedded with the SQLite state as an explicit
association of per-class tables, and storage failures as an explicit
failure model; Python exceptions that escape a method are modelled with
`Except`.
-/

namespace Absen

/-- The gallery loaded from `models/encodings.pkl`: three parallel lists
(`encodings`, `ids`, `names`), as built by the training pipeline. -/
structure Gallery where
  encodings : List (List ℚ)
  ids : List String
  names : List String
deriving DecidableEq

/-- The gallery `load_encodings` falls back to on any load error. -/
def emptyGallery : Gallery := ⟨[], [], []⟩

/-- `FaceDetector.load_encodings`: the artifact either deserialises to a
gallery (`some`) or raises during open/unpickle (`none`), in which case the
method returns the empty-gallery dictionary. -/
def load_encodings : Option Gallery → Gallery
  | some d => d
  | none => emptyGallery

/-- Detection tolerance passed to `face_recognition.compare_faces` (0.6). -/
def tolerance : ℚ := 3 / 5

/-- `self.min_confidence` (0.5). -/
def min_confidence : ℚ := 1 / 2

/-- `self.recognition_cooldown` in seconds (5). -/
def recognition_cooldown : ℚ := 5

/-- `self.frame_skip` (2). -/
def frame_skip : Nat := 2

/-- `self.scale_factor` (0.5). -/
def scale_factor : ℚ := 1 / 2

/-- `np.argmin`: index of the first occurrence of the least element. -/
def argmin : List ℚ → Nat
  | [] => 0
  | [_] => 0
  | d :: e :: rest =>
    let j := argmin (e :: rest)
    if (e :: rest).getD j 0 < d then j + 1 else 0

/-- The per-face matching logic of `recognize_faces`
(`face_detector.py` lines 110-141): `compare_faces` with tolerance 0.6,
`argmin` over the raw distances, membership of the best index among the
matched indexes, then the confidence floor.  Returns
`some (student_id, name, confidence)` when the face is accepted as known
and `none` when it stays "Unknown".  The distance vector `ds` is the
output of `face_recognition.face_distance` against the gallery. -/
def matchFace (g : Gallery) (ds : List ℚ) : Option (String × String × ℚ) :=
  let matchList := ds.map (fun d => decide (d ≤ tolerance))
  if true ∈ matchList then
    let matched_indexes := (List.range ds.length).filter (fun i => matchList.getD i false)
    let best_match_index := argmin ds
    if best_match_index ∈ matched_indexes then
      let confidence := 1 - ds.getD best_match_index 0
      if min_confidence ≤ confidence then
        some (g.ids.getD best_match_index "", g.names.getD best_match_index "", confidence)
      else none
    else none
  else none

/-- `self.last_recognition_time`: a Python dict from student id to the
time of the last emitted recognition. -/
abbrev Dict := List (String × ℚ)

/-- Dict lookup (`d[k]` / `k in d`). -/
def dictGet (m : Dict) (k : String) : Option ℚ :=
  match m with
  | [] => none
  | (k', v) :: rest => if k' = k then some v else dictGet rest k

/-- Dict update (`d[k] = v`). -/
def dictSet (m : Dict) (k : String) (v : ℚ) : Dict :=
  match m with
  | [] => [(k, v)]
  | (k', v') :: rest => if k' = k then (k', v) :: rest else (k', v') :: dictSet rest k v

/-- The cooldown check of `recognize_faces` (lines 143-149): emit iff the
id was never recorded or more than `recognition_cooldown` seconds elapsed;
on emission the stored timestamp becomes `now`. -/
def cooldownStep (last : Dict) (id : String) (now : ℚ) : Bool × Dict :=
  if dictGet last id = none ∨ recognition_cooldown < now - (dictGet last id).getD 0 then
    (true, dictSet last id now)
  else
    (false, last)

/-- A bounding box in original-frame coordinates, in the source's
`(top, right, bottom, left)` order. -/
structure Box where
  top : Int
  right : Int
  bottom : Int
  left : Int
deriving DecidableEq

/-- A video frame: an opaque image id plus the rectangles/labels drawn on
it by `cv2.rectangle` / `cv2.putText`. -/
structure Frame where
  image : Nat
  boxes : List (Box × String)
deriving DecidableEq

/-- What the `face_recognition` library reports for one detected face in
the downscaled frame: the `(top, right, bottom, left)` location, the
distance of its encoding to each gallery encoding, and the value
`time.time()` returns when the loop body processes this face. -/
structure FaceOb where
  top : Nat
  right : Nat
  bottom : Nat
  left : Nat
  distances : List ℚ
  time : ℚ
deriving DecidableEq

/-- `int(coord / self.scale_factor)`: the coordinates are non-negative, so
Python's truncation agrees with the floor. -/
def rescale (c : Nat) : Int := Rat.floor ((c : ℚ) / scale_factor)

/-- The box drawn for a face, after rescaling to original-frame
coordinates (lines 103-107). -/
def boxOf (f : FaceOb) : Box :=
  ⟨rescale f.top, rescale f.right, rescale f.bottom, rescale f.left⟩

/-- The label text of line 160. -/
def labelFor (id name : String) : String :=
  if id ≠ "Unknown" then name ++ " (" ++ id ++ ")" else "Unknown"

/-- Draw a rectangle-plus-label on the frame. -/
def drawBox (frame : Frame) (b : Box) (label : String) : Frame :=
  { frame with boxes := frame.boxes ++ [(b, label)] }

/-- One iteration of the `for (top, right, bottom, left), face_encoding`
loop: rescale, match, cooldown-gate, annotate.  Returns the updated
cooldown dict, the annotated frame, and the (at most one) emitted
`(id, name)` pair. -/
def processOne (g : Gallery) (last : Dict) (frame : Frame) (f : FaceOb) :
    Dict × Frame × List (String × String) :=
  match matchFace g f.distances with
  | some (id, name, _conf) =>
    let step := cooldownStep last id f.time
    (step.2, drawBox frame (boxOf f) (labelFor id name),
      if step.1 then [(id, name)] else [])
  | none =>
    (last, drawBox frame (boxOf f) "Unknown", [])

/-- The whole face loop, threading the cooldown dict and the frame and
accumulating `recognized_ids`/`recognized_names` in face order. -/
def processFaces (g : Gallery) (last : Dict) (frame : Frame) :
    List FaceOb → Dict × Frame × List (String × String)
  | [] => (last, frame, [])
  | f :: rest =>
    let step := processOne g last frame f
    let r := processFaces g step.1 step.2.1 rest
    (r.1, r.2.1, step.2.2 ++ r.2.2)

/-- The mutable state of a `FaceDetector` instance that
`recognize_faces` reads and writes. -/
structure DetectorState where
  data : Gallery
  frame_count : Nat
  last_recognition_time : Dict
deriving DecidableEq

/-- `FaceDetector.recognize_faces`: increment the frame counter and skip
unless it is divisible by `frame_skip`; return early when no face is
located; otherwise run the per-face loop and return the annotated frame
together with `list(zip(recognized_ids, recognized_names))`. -/
def recognize_faces (st : DetectorState) (frame : Frame) (faces : List FaceOb) :
    DetectorState × Frame × List (String × String) :=
  let fc := st.frame_count + 1
  if fc % frame_skip ≠ 0 then
    ({ st with frame_count := fc }, frame, [])
  else if faces.isEmpty then
    ({ st with frame_count := fc }, frame, [])
  else
    let r := processFaces st.data st.last_recognition_time frame faces
    (⟨st.data, fc, r.1⟩, r.2.1, r.2.2)

/-- Per the spec (§4.3 step 3), an "unknown" Match Result carries
confidence 0; a known one carries its derived confidence. -/
def confidenceOf : Option (String × String × ℚ) → ℚ
  | none => 0
  | some (_, _, c) => c

end Absen

namespace Absen.DBH

/-- One row of a per-class `attendance_<class_code>` table. -/
structure AttRecord where
  id : Nat
  nim : String
  name : String
  meeting : Nat
  timestamp : String
  status : String
deriving DecidableEq

/-- A per-class table: its rows plus the next `AUTOINCREMENT` id. -/
structure Table where
  rows : List AttRecord
  nextId : Nat
deriving DecidableEq

/-- The SQLite database: class code (table suffix) to table. -/
abbrev DB := List (String × Table)

/-- Which internal storage operations fail with `sqlite3.Error` on this
run: opening a connection, creating a table, or writing a row. -/
structure FailureModel where
  connFails : Bool
  createFails : Bool
  insertFails : Bool
deriving DecidableEq

/-- Fault-free storage. -/
def noFail : FailureModel := ⟨false, false, false⟩

/-- A Python exception escaping a `DatabaseHandler` method. -/
inductive PyExn where
  | sqliteError
  | unboundLocalError
deriving DecidableEq

/-- Lookup of the `attendance_<code>` table. -/
def findTable (db : DB) (code : String) : Option Table :=
  match db with
  | [] => none
  | (c, t) :: rest => if c = code then some t else findTable rest code

/-- Replace (or create) the `attendance_<code>` table. -/
def setTable (db : DB) (code : String) (t : Table) : DB :=
  match db with
  | [] => [(code, t)]
  | (c, t') :: rest => if c = code then (c, t) :: rest else (c, t') :: setTable rest code t

/-- `DatabaseHandler.ensure_table_exists`.  When the connection fails,
`get_connection` re-raises `sqlite3.Error`; the `except` handler then
evaluates `if conn:` with the local `conn` never assigned, so an
`UnboundLocalError` escapes.  When table creation fails with the
connection open, the handler closes the connection and returns `False`.
Otherwise the table is created if absent and the method returns `True`. -/
def ensure_table_exists (fm : FailureModel) (db : DB) (code : String) :
    Except PyExn (DB × Bool) :=
  if fm.connFails then .error .unboundLocalError
  else
    match findTable db code with
    | some _ => .ok (db, true)
    | none =>
      if fm.createFails then .ok (db, false)
      else .ok (setTable db code ⟨[], 1⟩, true)

/-- `DatabaseHandler.record_attendance`.  Ensures the table exists, then
in a `try` block: `SELECT id ... WHERE nim = ? AND meeting = ?`; on a hit,
return `(True, "Mahasiswa sudah absen sebelumnya")` without writing; on a
miss, `INSERT` a `'pending'` row and return
`(True, "Absensi berhasil dicatat")`.  A failing `INSERT` raises
`sqlite3.Error`, which the handler (with `conn` bound) converts to
`(False, "Error: ...")`.  A failing connection makes the `except` handler
itself raise `UnboundLocalError`, exactly as in `ensure_table_exists`. -/
def record_attendance (fm : FailureModel) (db : DB) (code nim name : String)
    (meeting : Nat) (ts : String) : Except PyExn (DB × Bool × String) :=
  match ensure_table_exists fm db code with
  | .error e => .error e
  | .ok (db1, ok) =>
    if ok = false then .ok (db1, false, "Gagal memastikan tabel ada")
    else if fm.connFails then .error .unboundLocalError
    else
      match findTable db1 code with
      | none => .ok (db1, false, "Error: no such table")
      | some t =>
        if t.rows.any (fun r => r.nim == nim && r.meeting == meeting) then
          .ok (db1, true, "Mahasiswa sudah absen sebelumnya")
        else if fm.insertFails then .ok (db1, false, "Error: insert gagal")
        else
          .ok (setTable db1 code
                ⟨t.rows ++ [⟨t.nextId, nim, name, meeting, ts, "pending"⟩], t.nextId + 1⟩,
              true, "Absensi berhasil dicatat")

/-- `DatabaseHandler.update_attendance_status`: empty id list returns
`True` before any connection is opened; otherwise
`UPDATE ... SET status = ? WHERE id IN (...)`; `sqlite3.Error` (failed
connection, or missing table) is converted to `False` by a handler that
checks `'conn' in locals()` first.  The updated row count is logged but
the method returns only a boolean. -/
def update_attendance_status (fm : FailureModel) (db : DB) (code : String)
    (ids : List Nat) (new_status : String) : DB × Bool :=
  if ids.isEmpty then (db, true)
  else if fm.connFails then (db, false)
  else
    match findTable db code with
    | none => (db, false)
    | some t =>
      (setTable db code
        ⟨t.rows.map (fun r => if ids.contains r.id then { r with status := new_status } else r),
         t.nextId⟩, true)

/-- Number of rows for a given `(nim, meeting)` in the class's table. -/
def countRecords (db : DB) (code nim : String) (meeting : Nat) : Nat :=
  match findTable db code with
  | none => 0
  | some t => (t.rows.filter (fun r => r.nim == nim && r.meeting == meeting)).length

/-- Number of rows the bulk status flip touches. -/
def updatedCount (db : DB) (code : String) (ids : List Nat) : Nat :=
  match findTable db code with
  | none => 0
  | some t => (t.rows.filter (fun r => ids.contains r.id)).length

/-- Python evaluates `True` as the integer `1` in numeric contexts. -/
def pyBoolAsInt (b : Bool) : Nat := if b then 1 else 0

/-- A concrete class table with two pending rows (ids 1 and 2). -/
def dbTwoRows : DB :=
  [("IF101", ⟨[⟨1, "A", "Ann", 1, "t1", "pending"⟩, ⟨2, "B", "Bob", 1, "t2", "pending"⟩], 3⟩)]

end Absen.DBH

namespace Absen

/-- A one-entry gallery for the identity `X`. -/
def galX : Gallery := ⟨[[(0 : ℚ)]], ["X"], ["X"]⟩

/-- A face observed at time `t` whose encoding coincides with `galX`'s
single encoding (distance 0). -/
def faceAt (t : ℚ) : FaceOb := ⟨10, 20, 30, 40, [0], t⟩

/-- A blank frame. -/
def frame0 : Frame := ⟨0, []⟩

/-- A detector that has already seen one frame (so the next one is
processed). -/
def stX : DetectorState := ⟨galX, 1, []⟩

/-- First processed frame: `X` in view at `t = 0`. -/
def run1 := recognize_faces stX frame0 [faceAt 0]

/-- An interleaved skipped frame. -/
def run2 := recognize_faces run1.1 frame0 []

/-- Second processed frame: `X` still in view at `t = 3`. -/
def run3 := recognize_faces run2.1 frame0 [faceAt 3]

/-- Another skipped frame. -/
def run4 := recognize_faces run3.1 frame0 []

/-- Third processed frame: `X` still in view at `t = 6`. -/
def run5 := recognize_faces run4.1 frame0 [faceAt 6]

end Absen

namespace Absen

theorem argmin_lt_length : ∀ (l : List ℚ), l ≠ [] → argmin l < l.length
  | [], h => absurd rfl h
  | [_], _ => Nat.zero_lt_one
  | d :: e :: rest, _ => by
    unfold argmin
    by_cases hlt : (e :: rest).getD (argmin (e :: rest)) 0 < d
    · simp only [hlt, if_true]
      have := argmin_lt_length (e :: rest) (by simp)
      simpa [List.length_cons] using Nat.succ_lt_succ this
    · simp only [hlt, if_false]
      simp [List.length_cons]

theorem argmin_min : ∀ (l : List ℚ) (i : Nat), i < l.length →
    l.getD (argmin l) 0 ≤ l.getD i 0
  | [], i, h => by simp at h
  | [d], i, h => by
    match i with
    | 0 => simp [argmin]
    | i' + 1 => simp at h
  | d :: e :: rest, i, h => by
    unfold argmin
    by_cases hlt : (e :: rest).getD (argmin (e :: rest)) 0 < d
    · simp only [hlt, if_true]
      rw [List.getD_cons_succ]
      match i with
      | 0 => exact le_of_lt (by simpa using hlt)
      | i' + 1 =>
        rw [List.getD_cons_succ]
        exact argmin_min (e :: rest) i' (by simpa [List.length_cons] using h)
    · simp only [hlt, if_false]
      rw [List.getD_cons_zero]
      match i with
      | 0 => simp
      | i' + 1 =>
        rw [List.getD_cons_succ]
        have hd : d ≤ (e :: rest).getD (argmin (e :: rest)) 0 := le_of_not_lt hlt
        exact le_trans hd
          (argmin_min (e :: rest) i' (by simpa [List.length_cons] using h))

end Absen

namespace Absen.DBH

theorem findTable_setTable_self (db : DB) (code : String) (t : Table) :
    findTable (setTable db code t) code = some t := by
  induction db with
  | nil => simp [setTable, findTable]
  | cons p rest ih =>
    obtain ⟨c, t'⟩ := p
    by_cases h : c = code
    · simp [setTable, findTable, h]
    · simp [setTable, findTable, h, ih]

theorem setTable_self (db : DB) (code : String) (t : Table)
    (h : findTable db code = some t) : setTable db code t = db := by
  induction db with
  | nil => simp [findTable] at h
  | cons p rest ih =>
    obtain ⟨c, t'⟩ := p
    by_cases hc : c = code
    · simp [findTable, hc] at h
      simp [setTable, hc, h]
    · simp [findTable, hc] at h
      simp [setTable, hc, ih h]

/-- C10: calling the bulk status flip with an empty id list returns
`True` without touching the database: the stored state is returned
unchanged for every class and even under every storage-failure mode,
because the early return happens before a connection is opened. -/
theorem update_status_empty_ids (fm : FailureModel) (db : DB) (code new_status : String) :
    update_attendance_status fm db code [] new_status = (db, true) := rfl

/-- C4 (the claim fails on the code): when opening the connection fails
with `sqlite3.Error`, `record_attendance` does not return a
`(success, message)` pair — the `except` handler evaluates `if conn:`
with `conn` never assigned, and the resulting `UnboundLocalError`
propagates to the caller, whatever the other failure flags and whatever
the stored state or arguments. -/
theorem record_attendance_conn_failure_raises (cf insf : Bool) (db : DB)
    (code nim name : String) (meeting : Nat) (ts : String) :
    record_attendance ⟨true, cf, insf⟩ db code nim name meeting ts
      = .error .unboundLocalError := rfl

end Absen.DBH

namespace Absen.DBH

/-- C3: the attendance recorder is idempotent.  Starting from a state with
no stored record for `(nim, meeting)` in the class's table, a first call
inserts exactly one such record, with status `'pending'`, and reports
success; a second call with identical arguments performs no write (the
state is returned unchanged), still reports success, and answers with the
"already recorded" message. -/
theorem record_attendance_idempotent (db : DB) (code nim name : String)
    (meeting : Nat) (ts ts2 : String)
    (h : countRecords db code nim meeting = 0) :
    ∃ db1,
      record_attendance noFail db code nim name meeting ts
          = .ok (db1, true, "Absensi berhasil dicatat")
        ∧ countRecords db1 code nim meeting = 1
        ∧ (∀ t, findTable db1 code = some t →
            ∀ r ∈ t.rows, r.nim = nim → r.meeting = meeting → r.status = "pending")
        ∧ record_attendance noFail db1 code nim name meeting ts2
            = .ok (db1, true, "Mahasiswa sudah absen sebelumnya") := by
  cases hft : findTable db code with
  | none =>
    refine ⟨setTable (setTable db code ⟨[], 1⟩) code
      ⟨[⟨1, nim, name, meeting, ts, "pending"⟩], 2⟩, ?_, ?_, ?_, ?_⟩
    · simp [record_attendance, ensure_table_exists, noFail, hft,
        findTable_setTable_self]
    · simp [countRecords, findTable_setTable_self]
    · intro t ht r hr h1 h2
      rw [findTable_setTable_self] at ht
      cases ht
      simp at hr
      subst hr
      rfl
    · simp [record_attendance, ensure_table_exists, noFail,
        findTable_setTable_self]
  | some t =>
    have hnone : ∀ r ∈ t.rows, ¬(r.nim == nim && r.meeting == meeting) = true := by
      intro r hr
      have : (t.rows.filter (fun r => r.nim == nim && r.meeting == meeting)).length = 0 := by
        simpa [countRecords, hft] using h
      rw [List.length_eq_zero] at this
      intro hp
      have : r ∈ t.rows.filter (fun r => r.nim == nim && r.meeting == meeting) :=
        List.mem_filter.mpr ⟨hr, hp⟩
      simp [‹_ = []›] at this
    have hany : (t.rows.any (fun r => r.nim == nim && r.meeting == meeting)) = false := by
      rw [List.any_eq_false]
      exact hnone
    refine ⟨setTable db code
      ⟨t.rows ++ [⟨t.nextId, nim, name, meeting, ts, "pending"⟩], t.nextId + 1⟩, ?_, ?_, ?_, ?_⟩
    · simp [record_attendance, ensure_table_exists, noFail, hft, hany]
    · have hfil : (t.rows.filter (fun r => r.nim == nim && r.meeting == meeting)) = [] := by
        rw [List.filter_eq_nil_iff]
        exact hnone
      simp [countRecords, findTable_setTable_self, List.filter_append, hfil]
    · intro t1 ht1 r hr h1 h2
      rw [findTable_setTable_self] at ht1
      cases ht1
      simp at hr
      rcases hr with hr | hr
      · exact absurd (by simp [h1, h2]) (hnone r hr)
      · subst hr; rfl
    · simp [record_attendance, ensure_table_exists, noFail,
        findTable_setTable_self, List.any_append]

end Absen.DBH

namespace Absen.DBH

/-- C5 counterexample: the bulk status flip does not return the count of
records updated.  On a table where the id list touches two records, the
operation returns the boolean `True` — numerically `1` in Python — while
the number of records updated is `2`. -/
theorem update_status_returns_bool_not_count :
    (update_attendance_status noFail dbTwoRows "IF101" [1, 2] "success").2 = true
    ∧ updatedCount dbTwoRows "IF101" [1, 2] = 2
    ∧ pyBoolAsInt (update_attendance_status noFail dbTwoRows "IF101" [1, 2] "success").2
        ≠ updatedCount dbTwoRows "IF101" [1, 2] := by decide

/-- C5 as amended: given a class whose table exists, the bulk status flip
sets status to `"success"` for exactly the records of that table whose id
is in the list, leaves every other record (and every other table)
unchanged, and returns `True` on success; the count of updated records is
only logged, not returned. -/
theorem update_status_flips_exactly (db : DB) (code : String) (ids : List Nat) (t : Table)
    (h : findTable db code = some t) :
    update_attendance_status noFail db code ids "success"
      = (setTable db code
          ⟨t.rows.map (fun r => if ids.contains r.id then { r with status := "success" } else r),
           t.nextId⟩, true) := by
  cases ids with
  | nil =>
    have hmap : t.rows.map
        (fun r => if ([] : List Nat).contains r.id then { r with status := "success" } else r)
        = t.rows := by
      have : ∀ r ∈ t.rows,
          (if ([] : List Nat).contains r.id then { r with status := "success" } else r) = r := by
        intro r _
        simp [List.contains]
      rw [List.map_congr_left this]; simp
    rw [update_attendance_status]
    simp only [List.isEmpty_nil, if_true]
    rw [hmap]
    have : (⟨t.rows, t.nextId⟩ : Table) = t := rfl
    rw [this, setTable_self db code t h]
  | cons i is =>
    simp [update_attendance_status, noFail, h]

end Absen.DBH

namespace Absen.DBH

theorem record_attendance_idempotent_witness :
    ∃ db1,
      record_attendance noFail [] "IF101" "118130001" "soara" 1 "t1"
          = .ok (db1, true, "Absensi berhasil dicatat")
        ∧ countRecords db1 "IF101" "118130001" 1 = 1
        ∧ (∀ t, findTable db1 "IF101" = some t →
            ∀ r ∈ t.rows, r.nim = "118130001" → r.meeting = 1 → r.status = "pending")
        ∧ record_attendance noFail db1 "IF101" "118130001" "soara" 1 "t2"
            = .ok (db1, true, "Mahasiswa sudah absen sebelumnya") :=
  record_attendance_idempotent [] "IF101" "118130001" "soara" 1 "t1" "t2" (by decide)

theorem update_status_flips_exactly_witness :
    update_attendance_status noFail dbTwoRows "IF101" [1, 2] "success"
      = (setTable dbTwoRows "IF101"
          ⟨([⟨1, "A", "Ann", 1, "t1", "pending"⟩,
             ⟨2, "B", "Bob", 1, "t2", "pending"⟩] : List AttRecord).map
              (fun r => if [1, 2].contains r.id then { r with status := "success" } else r),
           3⟩, true) :=
  update_status_flips_exactly dbTwoRows "IF101" [1, 2]
    ⟨[⟨1, "A", "Ann", 1, "t1", "pending"⟩, ⟨2, "B", "Bob", 1, "t2", "pending"⟩], 3⟩ (by decide)

end Absen.DBH

namespace Absen

theorem getD_map_of_lt (l : List ℚ) (f : ℚ → Bool) (i : Nat) (h : i < l.length) :
    (l.map f).getD i false = f (l.getD i 0) := by
  rw [List.getD_eq_getElem?_getD, List.getElem?_map,
    List.getD_eq_getElem?_getD, List.getElem?_eq_getElem h]
  simp

/-- C1: for every distance vector against a non-empty gallery, the
matcher classifies the face as known — with the identity, name and
`1 - distance` confidence of the entry at globally minimal raw distance —
exactly when that globally closest entry is below the 0.6 tolerance and
its derived confidence reaches the 0.5 floor; in every other case
(including a within-tolerance best entry whose confidence falls short)
the face resolves to unknown. -/
theorem matchFace_known_iff (g : Gallery) (ds : List ℚ)
    (hpar : ds.length = g.encodings.length) (hne : g.encodings ≠ []) :
    matchFace g ds =
      if ds.getD (argmin ds) 0 < 3 / 5 ∧ 1 / 2 ≤ 1 - ds.getD (argmin ds) 0 then
        some (g.ids.getD (argmin ds) "", g.names.getD (argmin ds) "",
          1 - ds.getD (argmin ds) 0)
      else none := by
  have hds : ds ≠ [] := by
    intro hnil
    apply hne
    have := hpar
    rw [hnil] at this
    simpa using (List.length_eq_zero.mp this.symm)
  have hb : argmin ds < ds.length := argmin_lt_length ds hds
  set b := argmin ds with hbdef
  set d := ds.getD b 0 with hddef
  have hmem_iff : (true ∈ ds.map (fun x => decide (x ≤ tolerance))) ↔
      ∃ a ∈ ds, a ≤ tolerance := by
    rw [List.mem_map]
    constructor
    · rintro ⟨a, ha, hdec⟩
      exact ⟨a, ha, of_decide_eq_true hdec⟩
    · rintro ⟨a, ha, hle⟩
      exact ⟨a, ha, decide_eq_true hle⟩
  have hbest_mem : d ≤ tolerance →
      b ∈ (List.range ds.length).filter
        (fun i => (ds.map (fun x => decide (x ≤ tolerance))).getD i false) := by
    intro htol
    refine List.mem_filter.mpr ⟨List.mem_range.mpr hb, ?_⟩
    rw [getD_map_of_lt ds _ b hb]
    exact decide_eq_true htol
  by_cases hc : d < 3 / 5 ∧ 1 / 2 ≤ 1 - d
  · have hd12 : d ≤ 1 / 2 := by linarith [hc.2]
    have htol : d ≤ tolerance := by
      rw [tolerance]
      linarith [hc.1]
    rw [if_pos hc]
    unfold matchFace
    have hdmem : d ∈ ds := by
      rw [hddef, List.getD_eq_getElem ds 0 hb]
      exact List.getElem_mem hb
    rw [if_pos (hmem_iff.mpr ⟨d, hdmem, htol⟩)]
    rw [if_pos (hbest_mem htol)]
    rw [if_pos (by rw [min_confidence]; linarith [hc.2])]
  · rw [if_neg hc]
    unfold matchFace
    by_cases hex : ∃ a ∈ ds, a ≤ tolerance
    · obtain ⟨a, ha, hatol⟩ := hex
      obtain ⟨i, hi, rfl⟩ := List.mem_iff_getElem.mp ha
      have hda : d ≤ ds[i] := by
        rw [← List.getD_eq_getElem ds 0 hi]
        exact argmin_min ds i hi
      have htol : d ≤ tolerance := le_trans hda hatol
      rw [if_pos (hmem_iff.mpr ⟨ds[i], List.getElem_mem hi, hatol⟩)]
      rw [if_pos (hbest_mem htol)]
      rw [if_neg]
      intro hconf
      apply hc
      rw [min_confidence] at hconf
      constructor
      · have : d ≤ 1 / 2 := by linarith
        calc d ≤ 1 / 2 := this
          _ < 3 / 5 := by norm_num
      · exact hconf
    · rw [if_neg]
      intro hmem
      exact hex (hmem_iff.mp hmem)

end Absen

namespace Absen

theorem matchFace_known_iff_witness :
    matchFace ⟨[[0], [1]], ["S1", "S2"], ["Ann", "Bo"]⟩ [1 / 10, 9 / 10] =
      if ([1 / 10, 9 / 10] : List ℚ).getD (argmin [1 / 10, 9 / 10]) 0 < 3 / 5
          ∧ 1 / 2 ≤ 1 - ([1 / 10, 9 / 10] : List ℚ).getD (argmin [1 / 10, 9 / 10]) 0 then
        some ((["S1", "S2"] : List String).getD (argmin [1 / 10, 9 / 10]) "",
          (["Ann", "Bo"] : List String).getD (argmin [1 / 10, 9 / 10]) "",
          1 - ([1 / 10, 9 / 10] : List ℚ).getD (argmin [1 / 10, 9 / 10]) 0)
      else none :=
  matchFace_known_iff ⟨[[0], [1]], ["S1", "S2"], ["Ann", "Bo"]⟩ [1 / 10, 9 / 10]
    (by simp) (by simp)

end Absen

namespace Absen

/-- C7: on a skipped frame (counter not divisible by `frame_skip`),
`recognize_faces` only increments the counter and returns the input frame
unchanged with an empty detection list — independent of whatever faces
the locator would have seen, so no location, matching or emission
happens and the cooldown state is untouched.  Moreover among the
`frame_skip` counter values following the current one, exactly one is
accepted. -/
theorem frame_sampler_skip (st : DetectorState) (frame : Frame) (faces : List FaceOb)
    (hskip : (st.frame_count + 1) % frame_skip ≠ 0) :
    recognize_faces st frame faces
        = (⟨st.data, st.frame_count + 1, st.last_recognition_time⟩, frame, [])
      ∧ ∃! k, st.frame_count < k ∧ k ≤ st.frame_count + frame_skip ∧ k % frame_skip = 0 := by
  constructor
  · unfold recognize_faces
    rw [if_pos hskip]
  · simp only [frame_skip]
    by_cases h : (st.frame_count + 1) % 2 = 0
    · exact ⟨st.frame_count + 1, ⟨by omega, by omega, h⟩, fun y hy => by omega⟩
    · exact ⟨st.frame_count + 2, ⟨by omega, by omega, by omega⟩, fun y hy => by omega⟩

theorem frame_sampler_skip_witness :
    recognize_faces ⟨emptyGallery, 0, []⟩ frame0 [faceAt 0]
        = (⟨emptyGallery, 1, []⟩, frame0, [])
      ∧ ∃! k, 0 < k ∧ k ≤ 0 + frame_skip ∧ k % frame_skip = 0 :=
  frame_sampler_skip ⟨emptyGallery, 0, []⟩ frame0 [faceAt 0] (by decide)

end Absen

namespace Absen

theorem processOne_boxes (g : Gallery) (last : Dict) (frame : Frame) (f : FaceOb) :
    (processOne g last frame f).2.1.boxes.map Prod.fst
      = frame.boxes.map Prod.fst ++ [boxOf f] := by
  unfold processOne
  cases hm : matchFace g f.distances with
  | none => simp [drawBox]
  | some r =>
    obtain ⟨id, name, conf⟩ := r
    simp [drawBox]

theorem processFaces_boxes (g : Gallery) (faces : List FaceOb) :
    ∀ (last : Dict) (frame : Frame),
    (processFaces g last frame faces).2.1.boxes.map Prod.fst
      = frame.boxes.map Prod.fst ++ faces.map boxOf := by
  induction faces with
  | nil =>
    intro last frame
    simp [processFaces]
  | cons f rest ih =>
    intro last frame
    unfold processFaces
    rw [ih, processOne_boxes]
    simp

/-- C6: on a processed frame, every reported face region is the detected
downscaled region with each coordinate divided by the spatial scale
factor (0.5) and truncated to an integer; in particular a detected region
`(10, 20, 30, 40)` is reported as `(20, 40, 60, 80)` in original-frame
coordinates. -/
theorem regions_rescaled (st : DetectorState) (frame : Frame) (faces : List FaceOb)
    (hacc : (st.frame_count + 1) % frame_skip = 0) (hne : faces ≠ []) :
    (recognize_faces st frame faces).2.1.boxes.map Prod.fst
        = frame.boxes.map Prod.fst ++ faces.map boxOf
      ∧ boxOf ⟨10, 20, 30, 40, [], 0⟩ = ⟨20, 40, 60, 80⟩ := by
  refine ⟨?_, by with_unfolding_all decide⟩
  unfold recognize_faces
  rw [if_neg (not_not_intro hacc)]
  rw [if_neg (by simp [List.isEmpty_iff, hne])]
  exact processFaces_boxes st.data faces st.last_recognition_time frame

theorem regions_rescaled_witness :
    (recognize_faces stX frame0 [faceAt 0]).2.1.boxes.map Prod.fst
        = frame0.boxes.map Prod.fst ++ [faceAt 0].map boxOf
      ∧ boxOf ⟨10, 20, 30, 40, [], 0⟩ = ⟨20, 40, 60, 80⟩ :=
  regions_rescaled stX frame0 [faceAt 0] (by decide) (by simp)

end Absen

namespace Absen

theorem processFaces_all_unknown (g : Gallery) (faces : List FaceOb)
    (hm : ∀ f ∈ faces, matchFace g f.distances = none) :
    ∀ (last : Dict) (frame : Frame),
    (processFaces g last frame faces).2.2 = []
      ∧ ∀ p ∈ (processFaces g last frame faces).2.1.boxes,
          p ∈ frame.boxes ∨ p.2 = "Unknown" := by
  induction faces with
  | nil =>
    intro last frame
    exact ⟨rfl, fun p hp => Or.inl hp⟩
  | cons f rest ih =>
    intro last frame
    have hf : matchFace g f.distances = none := hm f (by simp)
    have hrest : ∀ f' ∈ rest, matchFace g f'.distances = none := by
      intro f' h'
      exact hm f' (by simp [h'])
    have hstep : processOne g last frame f = (last, drawBox frame (boxOf f) "Unknown", []) := by
      unfold processOne
      rw [hf]
    have hih := ih hrest last (drawBox frame (boxOf f) "Unknown")
    constructor
    · simp only [processFaces, hstep, List.nil_append]
      exact hih.1
    · simp only [processFaces, hstep, List.nil_append]
      intro p hp
      rcases hih.2 p hp with h | h
      · simp only [drawBox, List.mem_append, List.mem_singleton] at h
        rcases h with h | h
        · exact Or.inl h
        · subst h
          exact Or.inr rfl
      · exact Or.inr h

/-- C8: a missing or unreadable gallery artifact loads as the empty
gallery, and with an empty gallery every detected face in every frame
resolves to unknown — the matcher returns no identity, the derived
confidence of the unknown result is 0, no recognition is emitted, and
every annotation drawn on the frame is the "Unknown" label. -/
theorem empty_gallery_all_unknown (st : DetectorState) (frame : Frame) (faces : List FaceOb)
    (_hg : st.data = emptyGallery) (hd : ∀ f ∈ faces, f.distances = []) :
    load_encodings none = emptyGallery
      ∧ (∀ f ∈ faces, matchFace st.data f.distances = none
            ∧ confidenceOf (matchFace st.data f.distances) = 0)
      ∧ (recognize_faces st frame faces).2.2 = []
      ∧ ∀ p ∈ (recognize_faces st frame faces).2.1.boxes,
          p ∈ frame.boxes ∨ p.2 = "Unknown" := by
  have hnone : ∀ f ∈ faces, matchFace st.data f.distances = none := by
    intro f hf
    rw [hd f hf]
    rfl
  refine ⟨rfl, fun f hf => ⟨hnone f hf, by rw [hnone f hf]; rfl⟩, ?_⟩
  unfold recognize_faces
  by_cases hskip : (st.frame_count + 1) % frame_skip ≠ 0
  · rw [if_pos hskip]
    exact ⟨rfl, fun p hp => Or.inl hp⟩
  · rw [if_neg hskip]
    by_cases hemp : faces.isEmpty
    · rw [if_pos hemp]
      exact ⟨rfl, fun p hp => Or.inl hp⟩
    · rw [if_neg hemp]
      exact processFaces_all_unknown st.data faces hnone st.last_recognition_time frame

theorem empty_gallery_all_unknown_witness :
    load_encodings none = emptyGallery
      ∧ (∀ f ∈ [(⟨1, 2, 3, 4, [], 0⟩ : FaceOb)], matchFace emptyGallery f.distances = none
            ∧ confidenceOf (matchFace emptyGallery f.distances) = 0)
      ∧ (recognize_faces ⟨emptyGallery, 1, []⟩ frame0 [⟨1, 2, 3, 4, [], 0⟩]).2.2 = []
      ∧ ∀ p ∈ (recognize_faces ⟨emptyGallery, 1, []⟩ frame0 [⟨1, 2, 3, 4, [], 0⟩]).2.1.boxes,
          p ∈ frame0.boxes ∨ p.2 = "Unknown" :=
  empty_gallery_all_unknown ⟨emptyGallery, 1, []⟩ frame0 [⟨1, 2, 3, 4, [], 0⟩]
    rfl (by simp)

end Absen

namespace Absen

theorem dictGet_dictSet_self (m : Dict) (k : String) (v : ℚ) :
    dictGet (dictSet m k v) k = some v := by
  induction m with
  | nil => simp [dictGet, dictSet]
  | cons p rest ih =>
    obtain ⟨k', v'⟩ := p
    by_cases h : k' = k
    · simp [dictGet, dictSet, h]
    · simp [dictGet, dictSet, h, ih]

theorem dictGet_dictSet_ne (m : Dict) (k k2 : String) (v : ℚ) (h : k ≠ k2) :
    dictGet (dictSet m k v) k2 = dictGet m k2 := by
  induction m with
  | nil => simp [dictGet, dictSet, h]
  | cons p rest ih =>
    obtain ⟨k', v'⟩ := p
    by_cases h' : k' = k
    · subst h'
      simp [dictGet, dictSet, h]
    · simp only [dictSet, if_neg h']
      by_cases h2 : k' = k2
      · simp [dictGet, h2]
      · simp [dictGet, h2, ih]

/-- C2: for a face the matcher resolves to a known identity on a
processed frame, `recognize_faces` emits the recognition exactly when
the identity was never emitted before or more than the 5-second cooldown
elapsed since its stored timestamp; on emission the stored timestamp
becomes the current time, and on suppression the cooldown state is
unchanged.  In particular, with the identity in view on processed frames
at t = 0, t = 3 and t = 6, the three calls emit, suppress and emit. -/
theorem cooldown_gate (st : DetectorState) (frame : Frame) (f : FaceOb)
    (id name : String) (conf : ℚ)
    (hacc : (st.frame_count + 1) % frame_skip = 0)
    (hm : matchFace st.data f.distances = some (id, name, conf)) :
    ((recognize_faces st frame [f]).2.2 = [(id, name)]
        ↔ (dictGet st.last_recognition_time id = none
            ∨ recognition_cooldown < f.time - (dictGet st.last_recognition_time id).getD 0))
      ∧ ((recognize_faces st frame [f]).2.2 = [(id, name)] →
          dictGet (recognize_faces st frame [f]).1.last_recognition_time id = some f.time)
      ∧ ((recognize_faces st frame [f]).2.2 = [] →
          (recognize_faces st frame [f]).1.last_recognition_time = st.last_recognition_time)
      ∧ (run1.2.2 = [("X", "X")] ∧ run3.2.2 = [] ∧ run5.2.2 = [("X", "X")]) := by
  have hrec : recognize_faces st frame [f]
      = (⟨st.data, st.frame_count + 1, (cooldownStep st.last_recognition_time id f.time).2⟩,
         drawBox frame (boxOf f) (labelFor id name),
         if (cooldownStep st.last_recognition_time id f.time).1 then [(id, name)] else []) := by
    unfold recognize_faces
    rw [if_neg (not_not_intro hacc), if_neg (by simp)]
    simp only [processFaces, processOne, hm, List.append_nil]
  by_cases hcond : dictGet st.last_recognition_time id = none
      ∨ recognition_cooldown < f.time - (dictGet st.last_recognition_time id).getD 0
  · have hcs : cooldownStep st.last_recognition_time id f.time
        = (true, dictSet st.last_recognition_time id f.time) := by
      unfold cooldownStep
      rw [if_pos hcond]
    rw [hrec, hcs]
    refine ⟨iff_of_true rfl hcond, ?_, ?_, by with_unfolding_all decide⟩
    · intro _
      exact dictGet_dictSet_self st.last_recognition_time id f.time
    · intro h
      simp at h
  · have hcs : cooldownStep st.last_recognition_time id f.time
        = (false, st.last_recognition_time) := by
      unfold cooldownStep
      rw [if_neg hcond]
    rw [hrec, hcs]
    refine ⟨iff_of_false (by simp) hcond, ?_, fun _ => rfl, by with_unfolding_all decide⟩
    intro h
    simp at h

theorem cooldown_gate_witness :
    ((recognize_faces stX frame0 [faceAt 0]).2.2 = [("X", "X")]
        ↔ (dictGet stX.last_recognition_time "X" = none
            ∨ recognition_cooldown
                < (faceAt 0).time - (dictGet stX.last_recognition_time "X").getD 0))
      ∧ ((recognize_faces stX frame0 [faceAt 0]).2.2 = [("X", "X")] →
          dictGet (recognize_faces stX frame0 [faceAt 0]).1.last_recognition_time "X"
            = some (faceAt 0).time)
      ∧ ((recognize_faces stX frame0 [faceAt 0]).2.2 = [] →
          (recognize_faces stX frame0 [faceAt 0]).1.last_recognition_time
            = stX.last_recognition_time)
      ∧ (run1.2.2 = [("X", "X")] ∧ run3.2.2 = [] ∧ run5.2.2 = [("X", "X")]) :=
  cooldown_gate stX frame0 (faceAt 0) "X" "X" 1 (by decide)
    (by with_unfolding_all decide)

end Absen

namespace Absen

theorem processFaces_nodup_aux (g : Gallery) (T : List ℚ)
    (hT : ∀ t ∈ T, ∀ t2 ∈ T, t2 - t ≤ recognition_cooldown) :
    ∀ (faces : List FaceOb), (∀ f ∈ faces, f.time ∈ T) →
    ∀ (last : Dict) (frame : Frame) (S : List String),
      S.Nodup → (∀ id ∈ S, ∃ t ∈ T, dictGet last id = some t) →
      (S ++ (processFaces g last frame faces).2.2.map Prod.fst).Nodup
        ∧ ∀ id ∈ S ++ (processFaces g last frame faces).2.2.map Prod.fst,
            ∃ t ∈ T, dictGet (processFaces g last frame faces).1 id = some t := by
  intro faces
  induction faces with
  | nil =>
    intro _ last frame S hS hmap
    simp only [processFaces, List.map_nil, List.append_nil]
    exact ⟨hS, hmap⟩
  | cons f rest ih =>
    intro hf last frame S hS hmap
    have hfT : f.time ∈ T := hf f (List.mem_cons_self f rest)
    have hfrest : ∀ f2 ∈ rest, f2.time ∈ T := by
      intro f2 h2
      exact hf f2 (List.mem_cons_of_mem f h2)
    cases hm : matchFace g f.distances with
    | none =>
      have hstep : processOne g last frame f
          = (last, drawBox frame (boxOf f) "Unknown", []) := by
        unfold processOne
        rw [hm]
      simp only [processFaces, hstep, List.nil_append]
      exact ih hfrest last (drawBox frame (boxOf f) "Unknown") S hS hmap
    | some r =>
      obtain ⟨id, name, conf⟩ := r
      by_cases hcond : dictGet last id = none
          ∨ recognition_cooldown < f.time - (dictGet last id).getD 0
      · -- emission: the id is appended and its timestamp reset to f.time
        have hcs : cooldownStep last id f.time = (true, dictSet last id f.time) := by
          unfold cooldownStep
          rw [if_pos hcond]
        have hstep : processOne g last frame f
            = (dictSet last id f.time,
               drawBox frame (boxOf f) (labelFor id name), [(id, name)]) := by
          unfold processOne
          rw [hm]
          simp [hcs]
        have hidS : id ∉ S := by
          intro hin
          obtain ⟨t, htT, hget⟩ := hmap id hin
          rcases hcond with hnone | hlt
          · rw [hget] at hnone
            exact Option.some_ne_none t hnone
          · rw [hget] at hlt
            simp only [Option.getD_some] at hlt
            exact absurd (hT t htT f.time hfT) (not_le.mpr hlt)
        have hS2 : (S ++ [id]).Nodup := by
          simp [List.nodup_append, hS, hidS]
        have hmap2 : ∀ id2 ∈ S ++ [id], ∃ t ∈ T,
            dictGet (dictSet last id f.time) id2 = some t := by
          intro id2 hid2
          rcases List.mem_append.mp hid2 with hin | hin
          · have hne : id ≠ id2 := by
              intro he
              exact hidS (he ▸ hin)
            obtain ⟨t, htT, hget⟩ := hmap id2 hin
            exact ⟨t, htT, by rw [dictGet_dictSet_ne last id id2 f.time hne, hget]⟩
          · have : id2 = id := by simpa using hin
            subst this
            exact ⟨f.time, hfT, dictGet_dictSet_self last id2 f.time⟩
        have hih := ih hfrest (dictSet last id f.time)
          (drawBox frame (boxOf f) (labelFor id name)) (S ++ [id]) hS2 hmap2
        simp only [processFaces, hstep]
        constructor
        · have := hih.1
          simpa [List.append_assoc] using this
        · intro id2 hid2
          refine hih.2 id2 ?_
          simpa [List.append_assoc] using hid2
      · -- suppression: state and emitted list are unchanged by this face
        have hcs : cooldownStep last id f.time = (false, last) := by
          unfold cooldownStep
          rw [if_neg hcond]
        have hstep : processOne g last frame f
            = (last, drawBox frame (boxOf f) (labelFor id name), []) := by
          unfold processOne
          rw [hm]
          simp [hcs]
        simp only [processFaces, hstep, List.nil_append]
        exact ih hfrest last (drawBox frame (boxOf f) (labelFor id name)) S hS hmap

/-- C9: within a single call to `recognize_faces` whose per-face clock
readings all lie within one cooldown window of each other (5 seconds, far
more than one frame takes), each identity appears at most once in the
returned recognized-people list: the first emission stores the current
time, which suppresses every later same-frame emission of that identity
under the cooldown rule — even when several faces (or duplicate gallery
entries) resolve to the same identity. -/
theorem no_duplicate_emission (st : DetectorState) (frame : Frame) (faces : List FaceOb)
    (hgap : ∀ f ∈ faces, ∀ f2 ∈ faces, f2.time - f.time ≤ recognition_cooldown) :
    ((recognize_faces st frame faces).2.2.map Prod.fst).Nodup := by
  unfold recognize_faces
  by_cases hskip : (st.frame_count + 1) % frame_skip ≠ 0
  · rw [if_pos hskip]
    simp
  · rw [if_neg hskip]
    by_cases hemp : faces.isEmpty
    · rw [if_pos hemp]
      simp
    · rw [if_neg hemp]
      have hT : ∀ t ∈ faces.map FaceOb.time, ∀ t2 ∈ faces.map FaceOb.time,
          t2 - t ≤ recognition_cooldown := by
        intro t ht t2 ht2
        obtain ⟨f, hfm, rfl⟩ := List.mem_map.mp ht
        obtain ⟨f2, hfm2, rfl⟩ := List.mem_map.mp ht2
        exact hgap f hfm f2 hfm2
      have hf : ∀ f ∈ faces, f.time ∈ faces.map FaceOb.time := by
        intro f hfm
        exact List.mem_map_of_mem FaceOb.time hfm
      have := processFaces_nodup_aux st.data (faces.map FaceOb.time) hT faces hf
        st.last_recognition_time frame [] List.nodup_nil (by simp)
      simpa using this.1

/-- Two faces in the same frame, both at distance 0 from both entries of a
gallery that enrolls the identity `X` twice: only one emission of `X`. -/
theorem no_duplicate_emission_witness :
    ((recognize_faces ⟨⟨[[0], [0]], ["X", "X"], ["A", "B"]⟩, 1, []⟩ frame0
        [⟨1, 2, 3, 4, [0, 0], 0⟩, ⟨5, 6, 7, 8, [0, 0], 1⟩]).2.2.map Prod.fst).Nodup :=
  no_duplicate_emission ⟨⟨[[0], [0]], ["X", "X"], ["A", "B"]⟩, 1, []⟩ frame0
    [⟨1, 2, 3, 4, [0, 0], 0⟩, ⟨5, 6, 7, 8, [0, 0], 1⟩]
    (by
      intro f hf f2 hf2
      simp only [List.mem_cons, List.not_mem_nil, or_false] at hf hf2
      rcases hf with rfl | rfl <;> rcases hf2 with rfl | rfl <;>
        rw [recognition_cooldown] <;> norm_num)

end Absen
